import Mathlib

/-!
Shallow embedding of the consumable-macros plugin
(src/scripts/consumable-macros.js) and verification of its specification.

Conventions of the embedding:
* Time is `Nat` milliseconds.
* The JS `Set` `recentlyExecuted` together with its `setTimeout` deletions is
  modelled as a list of `(key, expiryTime)` pairs; an entry is live at time
  `t` iff `t < expiry`.  Keeping dead entries in the list instead of deleting
  them is observationally equivalent for membership tests.
* JS string truthiness (`if (x)` on a string) is: present and non-empty; JS
  number truthiness treats `0` as false.
* `console.log` calls are pure tracing and are not modelled; `console.warn`
  is modelled as `Effect.logWarn` (not user visible); `ui.notifications.error`
  is modelled as `Effect.uiError` (user visible).
* Each hook handler in the source has the same control shape: a chain of
  synchronous early-return guards plus awaited `fromUuid` lookups, then the
  synchronous `shouldExecuteMacro` check-and-register, then
  `try { await macro.execute(ctx) } catch { ui.notifications.error }`.
  The embedding factors this as a per-handler "gate" (the guard chain,
  transcribed line by line) and a shared tail `checkAndRun`.
-/

namespace ConsumableMacros

/-- Key construction of `shouldExecuteMacro` (consumable-macros.js line 16):
the template literal joining item name and macro locator with `:`. -/
def keyFor (itemName macroUuid : String) : String :=
  itemName ++ ":" ++ macroUuid

/-- State of the module-level `recentlyExecuted` set (line 10), together with
the pending `setTimeout` deletions: each admitted key is paired with the time
at which its deletion timer fires. -/
structure DedupState where
  entries : List (String × Nat)
deriving Repr, DecidableEq

/-- Membership of `recentlyExecuted` at time `now`: some entry with this key
whose deletion timer (scheduled 500 ms after insertion, line 25) has not yet
fired. -/
def hasLiveEntry (s : DedupState) (now : Nat) (k : String) : Bool :=
  s.entries.any (fun e => e.1 == k && decide (now < e.2))

/-- Embedding of `shouldExecuteMacro` (lines 15-28): if the key is present,
return `false`; otherwise add it, schedule deletion 500 ms later, and return
`true`.  Returns the boolean together with the updated set state.  The
membership test, the insertion and the timer registration are one
synchronous block in the source (no `await` inside). -/
def shouldExecuteMacro (s : DedupState) (now : Nat) (itemName macroUuid : String) :
    Bool × DedupState :=
  let k := keyFor itemName macroUuid
  if hasLiveEntry s now k then (false, s)
  else (true, ⟨(k, now + 500) :: s.entries⟩)

/-- A host macro document (resolved by `fromUuid`). -/
structure MacroDoc where
  uuid : String
  name : String
deriving Repr, DecidableEq

/-- A host item document, restricted to the fields the plugin reads:
`item.id`, `item.name`, `item.type`, `item.system.quantity`,
`item.getFlag("consumable-macros", "macroUuid")` and `item.parent`. -/
structure Item where
  id : String
  name : String
  itemType : String
  quantity : Int
  macroFlag : Option String
  parentActorId : Option String
deriving Repr, DecidableEq

/-- A host actor document: `game.actors.get` result with its `items`. -/
structure Actor where
  id : String
  items : List Item
deriving Repr, DecidableEq

/-- The host environment visible to the handlers: the session user
(`game.user.id`), macro resolution (`fromUuid` on macro locators), recorded
macro-execution failures (`macro.execute` raising), item resolution
(`fromUuid` on item locators), `game.actors`, `game.items`, and the
prevailing speaker actor (`ChatMessage.getSpeakerActor(ChatMessage.getSpeaker())`). -/
structure Env where
  sessionUserId : String
  macros : List (String × MacroDoc)
  macroFailures : List (String × String)
  itemsByUuid : List (String × Item)
  actors : List (String × Actor)
  worldItems : List Item
  speakerActorId : Option String
deriving Repr, DecidableEq

/-- fromUuid on a macro locator. -/
def lookupMacroDoc (env : Env) (uuid : String) : Option MacroDoc :=
  env.macros.lookup uuid

/-- The failure message raised by `macro.execute`, when that execution fails. -/
def macroFailure (env : Env) (uuid : String) : Option String :=
  env.macroFailures.lookup uuid

/-- JS truthiness for an optional string: absent and empty are both falsy. -/
def optStrTruthy : Option String → Option String
  | none => none
  | some s => if s.isEmpty then none else some s

/-- The part of the invocation context the claims observe: the `actor`,
`item` entries of the object passed to `macro.execute`. -/
structure Context where
  actorId : Option String
  itemId : String
  itemName : String
deriving Repr, DecidableEq

/-- Observable effects of a handler run. -/
inductive Effect where
  | invoke (macroUuid : String) (ctx : Context)
  | uiError (msg : String)
  | logWarn (msg : String)
deriving Repr, DecidableEq

/-- Body of the `try` block: the macro's execution entry point is invoked,
and the macro's own logic either returns or raises a failure message. -/
def rawExecute (env : Env) (m : MacroDoc) (ctx : Context) : List Effect × Option String :=
  ([Effect.invoke m.uuid ctx], macroFailure env m.uuid)

/-- The `catch (err)` block shared verbatim by all five consumption handlers
(e.g. lines 241-244): the raised failure becomes one
`ui.notifications.error` with the failure's message and is not rethrown. -/
def catchAtBoundary (r : List Effect × Option String) : List Effect × Option String :=
  match r.2 with
  | none => r
  | some msg => (r.1 ++ [Effect.uiError ("Failed to execute macro: " ++ msg)], none)

/-- Shared tail of every consumption handler: the synchronous
`shouldExecuteMacro` check (early return on `false`), then the guarded
execution.  Returns the new dedup state, the effects, and the (always
absent) propagated failure. -/
def checkAndRun (env : Env) (now : Nat) (d : DedupState) (itemName macroUuid : String)
    (m : MacroDoc) (ctx : Context) : DedupState × List Effect × Option String :=
  if (shouldExecuteMacro d now itemName macroUuid).1 then
    ((shouldExecuteMacro d now itemName macroUuid).2,
     (catchAtBoundary (rawExecute env m ctx)).1,
     (catchAtBoundary (rawExecute env m ctx)).2)
  else ((shouldExecuteMacro d now itemName macroUuid).2, [], none)

/-! ### String matching used by the createChatMessage handler

The source uses four JS regular expressions (lines 470, 480, 484, 491).
Each is transcribed below as a deterministic scanner over `List Char`; the
greedy-with-backtracking semantics of each pattern reduces to first-occurrence
scans because every repeated class excludes exactly the character that
terminates it. -/

/-- JS whitespace class `\s` restricted to the characters that occur in chat
content. -/
def isWsChar (c : Char) : Bool :=
  c == ' ' || c == '\t' || c == '\n' || c == '\r'

/-- JS `String.prototype.trim`. -/
def jsTrim (s : String) : String :=
  ⟨((s.data.dropWhile isWsChar).reverse.dropWhile isWsChar).reverse⟩

/-- One global-replace pass of `content.replace(/<[^>]*>/g, '')` (line 480):
a `<` that is followed by a later `>` is removed together with everything up
to that first `>`; a `<` never followed by `>` cannot start a match and is
kept.  The recursion is made structural on a fuel argument so that it
reduces definitionally; every step consumes at least one character, so fuel
equal to the list length always suffices. -/
def stripTagsFuel : Nat → List Char → List Char
  | 0, l => l
  | _ + 1, [] => []
  | fuel + 1, c :: rest =>
    if c == '<' then
      match rest.dropWhile (fun x => x != '>') with
      | [] => c :: stripTagsFuel fuel rest
      | _ :: after => stripTagsFuel fuel after
    else c :: stripTagsFuel fuel rest

/-- `content.replace(/<[^>]*>/g, '')` as a string function. -/
def stripTags (s : String) : String := ⟨stripTagsFuel s.data.length s.data⟩

/-- Attempt the suffix of the flavor pattern
`data-item-id="[^"]*"[^>]*>([^<]+)<` (line 470) at a position immediately
after the literal `data-item-id="`.  Consumes up to the first `"`, then up
to the first `>`, then captures the nonempty run up to a required `<`. -/
def flavorMatchAt (l : List Char) : Option (List Char) :=
  match l.dropWhile (fun x => x != '"') with
  | [] => none
  | _ :: rest1 =>
    match rest1.dropWhile (fun x => x != '>') with
    | [] => none
    | _ :: rest2 =>
      let cap := rest2.takeWhile (fun x => x != '<')
      if cap.isEmpty then none
      else if (rest2.dropWhile (fun x => x != '<')).isEmpty then none
      else some cap

/-- Scan for the first successful match of the flavor pattern, trying every
occurrence of the leading literal as JS regex search does. -/
def flavorScan (pat : List Char) (l : List Char) : Option (List Char) :=
  match l with
  | [] => none
  | _ :: rest =>
    if pat.isPrefixOf l then
      match flavorMatchAt (l.drop pat.length) with
      | some cap => some cap
      | none => flavorScan pat rest
    else flavorScan pat rest

/-- Pattern 1 (line 470): `flavor.match(/data-item-id="[^"]*"[^>]*>([^<]+)</)`,
returning the first capture group. -/
def flavorItemName (s : String) : Option String :=
  (flavorScan "data-item-id=\"".data s.data).map (fun cs => ⟨cs⟩)

/-- Attempt the suffix of `data-item-name="([^"]+)"` (line 491) immediately
after the literal `data-item-name="`: a nonempty capture up to a required
closing quote. -/
def attrMatchAt (l : List Char) : Option (List Char) :=
  let cap := l.takeWhile (fun x => x != '"')
  if cap.isEmpty then none
  else if (l.dropWhile (fun x => x != '"')).isEmpty then none
  else some cap

/-- Scan for the first match of the `data-item-name` pattern. -/
def attrScan (pat : List Char) (l : List Char) : Option (List Char) :=
  match l with
  | [] => none
  | _ :: rest =>
    if pat.isPrefixOf l then
      match attrMatchAt (l.drop pat.length) with
      | some cap => some cap
      | none => attrScan pat rest
    else attrScan pat rest

/-- Pattern `content.match(/data-item-name="([^"]+)"/)` (line 491). -/
def contentAttrName (s : String) : Option String :=
  (attrScan "data-item-name=\"".data s.data).map (fun cs => ⟨cs⟩)

/-- The match `textContent.match(/^Uses\s+(.+)$/i)` (line 484), returning the
capture.  After a case-insensitive `Uses` there must be at least one
whitespace character.  `.` excludes newline and `$` is the very end, so the
capture is the remainder after the maximal whitespace run when that is
nonempty and newline-free; when the remainder is all whitespace the greedy
`\s+` backs off one character, which must not be a newline. -/
def usesCapture (s : String) : Option String :=
  match s.data with
  | u :: s1 :: e :: s2 :: tail =>
    if u.toLower == 'u' && s1.toLower == 's' && e.toLower == 'e' && s2.toLower == 's' then
      let w := tail.takeWhile isWsChar
      let r := tail.dropWhile isWsChar
      if w.isEmpty then none
      else if r.isEmpty then
        match w.getLast? with
        | some lastW =>
          if w.length ≥ 2 && lastW != '\n' then some ⟨[lastW]⟩ else none
        | none => none
      else if r.contains '\n' then none
      else some ⟨r⟩
    else none
  | _ => none

/-! ### The notification handlers -/

/-- The value of `consumedItems.set(item.id, {...})` (lines 273-277): the
pre-delete snapshot of name, macro locator and owning actor. -/
structure PendingEntry where
  name : String
  macroUuid : String
  actorId : Option String
deriving Repr, DecidableEq

/-- The module-level `consumedItems` map (line 253). -/
abbrev Pending := List (String × PendingEntry)

/-- `consumedItems.set k v` (replace-or-add). -/
def pendingSet (p : Pending) (k : String) (v : PendingEntry) : Pending :=
  (k, v) :: p.filter (fun e => e.1 != k)

/-- `consumedItems.delete k`. -/
def pendingDelete (p : Pending) (k : String) : Pending :=
  p.filter (fun e => e.1 != k)

/-- The `change` argument of `preUpdateItem`, restricted to the one field
read: `change.system?.quantity`. -/
structure Change where
  quantity : Option Int
deriving Repr, DecidableEq

/-- The fields of a chat message read by the `createChatMessage` handler. -/
structure ChatMsg where
  directItem : Option Item
  contextItemUuid : Option String
  originUuid : Option String
  originName : Option String
  originSourceId : Option String
  flavor : Option String
  content : Option String
  speakerActorId : Option String
deriving Repr, DecidableEq

/-- The six host notifications the plugin subscribes to, with the payload
each hook callback receives. -/
inductive Notif where
  | preUpdate (item : Item) (change : Change) (userId : String)
  | preDelete (item : Item) (userId : String)
  | postDelete (item : Item) (userId : String)
  | pf2eUse (item : Item)
  | pf2eConsume (item : Item) (actorId : String)
  | chatCreate (msg : ChatMsg) (userId : String)
deriving Repr, DecidableEq

/-- The shared mutable module state: the dedup set and the pending-deletion
map. -/
structure SysState where
  dedup : DedupState
  pending : Pending
deriving Repr, DecidableEq

/-- Outcome of a handler's guard chain: either an early return (possibly
after a `console.warn` and/or a pending-map write), or reaching the
dedup-check-plus-invoke tail with the resolved macro and context. -/
inductive GateResult where
  | bail (pending : Pending) (warnMsg : Option String)
  | go (pending : Pending) (itemName macroUuid : String) (m : MacroDoc) (ctx : Context)
deriving Repr, DecidableEq

/-- `game.actors.get(actorId)?.items.get(itemId)` where the item id may be
`undefined` (line 459: `uuidParts[3]` is read under a length check of only
`>= 3`). -/
def actorItemById (a : Actor) (oid : Option String) : Option Item :=
  match oid with
  | none => none
  | some i => a.items.find? (fun it => it.id == i)

/-- Name extraction, lines 464-501.  Pattern 1: the flavor regex; pattern 2:
`Uses X` on the tag-stripped trimmed content, else the `data-item-name`
attribute on the raw content; pattern 3: `flags.pf2e.origin.name`.  Each
later pattern runs only when the previous result is JS-falsy, and the final
`if (itemName)` guard (line 503) discards a falsy result. -/
def extractItemName (msg : ChatMsg) : Option String :=
  let n1 : Option String :=
    match optStrTruthy msg.flavor with
    | some f => flavorItemName f
    | none => none
  let n2 : Option String :=
    if (optStrTruthy n1).isNone then
      match optStrTruthy msg.content with
      | some c =>
        match usesCapture (jsTrim (stripTags c)) with
        | some cap => some (jsTrim cap)
        | none => contentAttrName c
      | none => n1
    else n1
  let n3 : Option String :=
    if (optStrTruthy n2).isNone then
      match optStrTruthy msg.originName with
      | some nm => some nm
      | none => n2
    else n2
  optStrTruthy n3

/-- Name-based search, lines 503-531: the actor's inventory first, then
`game.items`, then the `origin.sourceId` document accepted only on a name
match. -/
def resolveByName (env : Env) (msg : ChatMsg) (actor : Actor) : Option Item :=
  match extractItemName msg with
  | none => none
  | some nm =>
    match actor.items.find? (fun i => i.name == nm && i.itemType == "consumable") with
    | some it => some it
    | none =>
      match env.worldItems.find? (fun i => i.name == nm && i.itemType == "consumable") with
      | some it => some it
      | none =>
        match optStrTruthy msg.originSourceId with
        | some sid =>
          match env.itemsByUuid.lookup sid with
          | some src => if src.name == nm then some src else none
          | none => none
        | none => none

/-- JS `String.prototype.split` with a one-character separator, as used by
`originUuid.split('.')` (line 451): `""` splits to `[""]`, and a trailing
separator yields a trailing empty field. -/
def splitOnChar (sep : Char) : List Char → List (List Char)
  | [] => [[]]
  | c :: rest =>
    if c == sep then [] :: splitOnChar sep rest
    else
      match splitOnChar sep rest with
      | [] => [[c]]
      | g :: gs => (c :: g) :: gs

/-- `s.split(sep)` on strings. -/
def jsSplit (s : String) (sep : Char) : List String :=
  (splitOnChar sep s.data).map (fun cs => ⟨cs⟩)

/-- Structural parse of the origin uuid, lines 450-541: split on `.`, require
`Actor` at index 0 and `Item` at index 2 (length checked only `>= 3`), look
the actor up, try the item by id, and fall back to name search. -/
def resolveFromOriginParts (env : Env) (msg : ChatMsg) (ou : String) : Option Item :=
  let parts := jsSplit ou '.'
  if parts.length ≥ 3 && parts.get? 0 == some "Actor" && parts.get? 2 == some "Item" then
    match parts.get? 1 with
    | none => none
    | some actorId =>
      match env.actors.lookup actorId with
      | none => none
      | some actor =>
        match actorItemById actor (parts.get? 3) with
        | some it => some it
        | none => resolveByName env msg actor
  else none

/-- Item resolution of the `createChatMessage` handler, lines 423-543:
`message.item`, then the context-flag uuid, then the origin uuid directly,
then the structural parse with its name fallbacks. -/
def resolveChatItem (env : Env) (msg : ChatMsg) : Option Item :=
  match msg.directItem with
  | some it => some it
  | none =>
    let viaCtx : Option Item :=
      match optStrTruthy msg.contextItemUuid with
      | some u => env.itemsByUuid.lookup u
      | none => none
    match viaCtx with
    | some it => some it
    | none =>
      match optStrTruthy msg.originUuid with
      | none => none
      | some ou =>
        match env.itemsByUuid.lookup ou with
        | some it => some it
        | none => resolveFromOriginParts env msg ou

/-- Guard chain of `preUpdateItem` (lines 181-220): user filter, consumable
filter, JS-truthy quantity filter (so a new quantity of `0` bails), strict
decrease, flag presence, macro resolution. -/
def gatePreUpdate (env : Env) (p : Pending) (item : Item) (change : Change)
    (userId : String) : GateResult :=
  if userId != env.sessionUserId then .bail p none
  else if item.itemType != "consumable" then .bail p none
  else
    match change.quantity with
    | none => .bail p none
    | some newQ =>
      if newQ == 0 then .bail p none
      else if item.quantity ≤ newQ then .bail p none
      else
        match optStrTruthy item.macroFlag with
        | none => .bail p none
        | some uuid =>
          match lookupMacroDoc env uuid with
          | none => .bail p (some ("Macro " ++ uuid ++ " not found for item " ++ item.name))
          | some m =>
            .go p item.name uuid m ⟨env.speakerActorId, item.id, item.name⟩

/-- Guard chain of `preDeleteItem` (lines 256-280): user filter, consumable
filter, flag presence, then the snapshot write; this handler never reaches a
dedup check. -/
def gatePreDelete (env : Env) (p : Pending) (item : Item) (userId : String) : GateResult :=
  if userId != env.sessionUserId then .bail p none
  else if item.itemType != "consumable" then .bail p none
  else
    match optStrTruthy item.macroFlag with
    | none => .bail p none
    | some uuid =>
      .bail (pendingSet p item.id ⟨item.name, uuid, item.parentActorId⟩) none

/-- Guard chain of `deleteItem` (lines 283-323): pending lookup (no user or
type filter here), entry removal, macro resolution from the snapshot; the
context actor is the snapshot actor with the speaker actor as fallback
(line 307). -/
def gatePostDelete (env : Env) (p : Pending) (item : Item) : GateResult :=
  match p.lookup item.id with
  | none => .bail p none
  | some snap =>
    let p' := pendingDelete p item.id
    match lookupMacroDoc env snap.macroUuid with
    | none => .bail p' (some ("Macro " ++ snap.macroUuid ++ " not found"))
    | some m =>
      .go p' snap.name snap.macroUuid m
        ⟨snap.actorId <|> env.speakerActorId, item.id, item.name⟩

/-- Guard chain of `pf2e.useItem` (lines 328-342): consumable filter, flag
presence, macro resolution; no user filter (the hook payload carries no user
identifier). -/
def gatePf2eUse (env : Env) (p : Pending) (item : Item) : GateResult :=
  if item.itemType != "consumable" then .bail p none
  else
    match optStrTruthy item.macroFlag with
    | none => .bail p none
    | some uuid =>
      match lookupMacroDoc env uuid with
      | none => .bail p none
      | some m =>
        .go p item.name uuid m ⟨env.speakerActorId, item.id, item.name⟩

/-- Guard chain of `pf2e.consumeItem` (lines 372-383): flag presence and
macro resolution only; no user filter and no type filter. -/
def gatePf2eConsume (env : Env) (p : Pending) (item : Item) (actorId : String) : GateResult :=
  match optStrTruthy item.macroFlag with
  | none => .bail p none
  | some uuid =>
    match lookupMacroDoc env uuid with
    | none => .bail p none
    | some m =>
      .go p item.name uuid m ⟨some actorId, item.id, item.name⟩

/-- Guard chain of `createChatMessage` (lines 411-569): user filter, item
resolution, consumable filter, flag presence, macro resolution; the context
actor comes from the message's speaker (lines 575-576). -/
def gateChatCreate (env : Env) (p : Pending) (msg : ChatMsg) (userId : String) : GateResult :=
  if userId != env.sessionUserId then .bail p none
  else
    match resolveChatItem env msg with
    | none => .bail p none
    | some item =>
      if item.itemType != "consumable" then .bail p none
      else
        match optStrTruthy item.macroFlag with
        | none => .bail p none
        | some uuid =>
          match lookupMacroDoc env uuid with
          | none => .bail p (some ("Macro " ++ uuid ++ " not found"))
          | some m =>
            .go p item.name uuid m ⟨msg.speakerActorId, item.id, item.name⟩

/-- Dispatch a notification to its handler's guard chain. -/
def gateOf (env : Env) (p : Pending) : Notif → GateResult
  | .preUpdate item change userId => gatePreUpdate env p item change userId
  | .preDelete item userId => gatePreDelete env p item userId
  | .postDelete item _ => gatePostDelete env p item
  | .pf2eUse item => gatePf2eUse env p item
  | .pf2eConsume item actorId => gatePf2eConsume env p item actorId
  | .chatCreate msg userId => gateChatCreate env p msg userId

/-- Effects of an early return: at most one `console.warn`. -/
def warnEffects : Option String → List Effect
  | none => []
  | some w => [Effect.logWarn w]

/-- The full result of one handler run. -/
structure HOut where
  dedup : DedupState
  pending : Pending
  effects : List Effect
  thrown : Option String
  checks : List (Nat × String × String)
deriving Repr, DecidableEq

/-- Run one handler to completion: the guard chain, then (when reached) the
synchronous dedup check and the guarded invocation.  `now` is the time at
which the handler's dedup check runs; `checks` records the check performed,
for the event-loop bridge below. -/
def runHandler (env : Env) (now : Nat) (st : SysState) (n : Notif) : HOut :=
  match gateOf env st.pending n with
  | .bail p w => ⟨st.dedup, p, warnEffects w, none, []⟩
  | .go p nm uuid m ctx =>
    let r := checkAndRun env now st.dedup nm uuid m ctx
    ⟨r.1, p, r.2.1, r.2.2, [(now, nm, uuid)]⟩

/-- Sequential processing of a list of timed notifications.  The host event
loop may interleave the asynchronous segments of several handlers, but the
only shared state the handlers touch is the dedup set — read and written in
the single synchronous `shouldExecuteMacro` step — and the pending map —
written by a synchronous pre-delete segment and read by its post-delete.
Processing whole handlers in the order of their dedup-check times `now` is
therefore equivalent to any host interleaving with those check times. -/
def runEvents (env : Env) : SysState → List (Nat × Notif) → SysState × List Effect
  | st, [] => (st, [])
  | st, (t, n) :: rest =>
    let o := runHandler env t st n
    let r := runEvents env ⟨o.dedup, o.pending⟩ rest
    (r.1, o.effects ++ r.2)

/-- The dedup checks performed during `runEvents`, in order. -/
def checksOf (env : Env) : SysState → List (Nat × Notif) → List (Nat × String × String)
  | _, [] => []
  | st, (t, n) :: rest =>
    let o := runHandler env t st n
    o.checks ++ checksOf env ⟨o.dedup, o.pending⟩ rest

/-- Count of macro invocations among a handler's effects. -/
def invokeCount (effs : List Effect) : Nat :=
  (effs.filter (fun e => match e with | .invoke _ _ => true | _ => false)).length

/-- Count of user-visible error notifications among a handler's effects. -/
def uiErrorCount (effs : List Effect) : Nat :=
  (effs.filter (fun e => match e with | .uiError _ => true | _ => false)).length

/-- Count of invocations of macros whose own execution fails. -/
def failingInvokeCount (env : Env) (effs : List Effect) : Nat :=
  (effs.filter (fun e => match e with
    | .invoke uuid _ => (macroFailure env uuid).isSome
    | _ => false)).length

/-! ### Host events and originating users

A host notification originates from some connected user's action.  The
`preUpdateItem`, `preDeleteItem`, `deleteItem` and `createChatMessage` hook
payloads carry that user's id as their `userId` argument; the `pf2e.useItem`
and `pf2e.consumeItem` hook payloads carry no user identifier. -/

/-- A host event: the originating user, the dedup-check time, and the
notification payload as handed to the subscribed callback. -/
structure HostEvent where
  originUserId : String
  time : Nat
  notif : Notif
deriving Repr, DecidableEq

/-- The user identifier the hook payload itself carries, when it carries
one. -/
def notifUserId : Notif → Option String
  | .preUpdate _ _ u => some u
  | .preDelete _ u => some u
  | .postDelete _ u => some u
  | .pf2eUse _ => none
  | .pf2eConsume _ _ => none
  | .chatCreate _ u => some u

/-- A host event is well formed when the userId its payload carries (if any)
is the originating user's. -/
def WellFormedEvent (e : HostEvent) : Prop :=
  ∀ u, notifUserId e.notif = some u → u = e.originUserId

/-- Handle one host event: the plugin sees only the hook payload. -/
def handleEvent (env : Env) (st : SysState) (e : HostEvent) : HOut :=
  runHandler env e.time st e.notif

/-! ### Control-flow skeletons of the handlers

For the concurrency claims the order of the synchronous and awaited segments
inside each handler matters.  Each skeleton below transcribes, in source
order, the spine of the handler along its invoking path: its synchronous
guard work, its awaited `fromUuid` macro resolution, its synchronous
`shouldExecuteMacro` call, and its awaited `macro.execute`. -/

/-- One segment of a handler body. -/
inductive HandlerStep where
  | syncWork
  | awaitResolve
  | dedupCheck
  | awaitExecute
deriving Repr, DecidableEq

/-- `preUpdateItem`: guards (lines 185-211), `await fromUuid` (line 213),
`shouldExecuteMacro` (line 220), `await macro.execute` (line 233). -/
def preUpdateSkeleton : List HandlerStep :=
  [.syncWork, .awaitResolve, .dedupCheck, .awaitExecute]

/-- `deleteItem`: pending lookup and removal (lines 287-291),
`await fromUuid` (line 293), `shouldExecuteMacro` (line 300),
`await macro.execute` (line 311). -/
def postDeleteSkeleton : List HandlerStep :=
  [.syncWork, .awaitResolve, .dedupCheck, .awaitExecute]

/-- `pf2e.useItem`: guards (lines 332-336), `await fromUuid` (line 338),
`shouldExecuteMacro` (line 342), `await macro.execute` (line 353). -/
def pf2eUseSkeleton : List HandlerStep :=
  [.syncWork, .awaitResolve, .dedupCheck, .awaitExecute]

/-- `pf2e.consumeItem`: guard (line 376), `await fromUuid` (line 379),
`shouldExecuteMacro` (line 383), `await macro.execute` (line 393). -/
def pf2eConsumeSkeleton : List HandlerStep :=
  [.syncWork, .awaitResolve, .dedupCheck, .awaitExecute]

/-- `createChatMessage`: resolution work (lines 420-560, which may itself
contain further awaited lookups), the unconditional `await fromUuid` on the
macro locator (line 562), `shouldExecuteMacro` (line 569),
`await macro.execute` (line 580). -/
def chatCreateSkeleton : List HandlerStep :=
  [.syncWork, .awaitResolve, .dedupCheck, .awaitExecute]

/-- The five handlers that perform a dedup check, with their skeletons
(`preDeleteItem` performs none). -/
def handlerSkeletons : List (String × List HandlerStep) :=
  [("preUpdateItem", preUpdateSkeleton),
   ("deleteItem", postDeleteSkeleton),
   ("pf2e.useItem", pf2eUseSkeleton),
   ("pf2e.consumeItem", pf2eConsumeSkeleton),
   ("createChatMessage", chatCreateSkeleton)]

/-! ### Bridge lemmas: invocations are exactly the admitted dedup checks -/

/-- Fold a sequence of dedup checks through `shouldExecuteMacro`, returning
the final state and the number of admitted checks. -/
def foldChecks (d : DedupState) : List (Nat × String × String) → DedupState × Nat
  | [] => (d, 0)
  | (t, nm, uu) :: rest =>
    let r := shouldExecuteMacro d t nm uu
    let f := foldChecks r.2 rest
    (f.1, (if r.1 then 1 else 0) + f.2)

lemma invokeCount_append (a b : List Effect) :
    invokeCount (a ++ b) = invokeCount a + invokeCount b := by
  simp [invokeCount, List.filter_append]

lemma invokeCount_warnEffects (w : Option String) : invokeCount (warnEffects w) = 0 := by
  cases w <;> simp [warnEffects, invokeCount]

/-- The guarded execution always records exactly one invocation. -/
lemma invokeCount_catch (env : Env) (m : MacroDoc) (ctx : Context) :
    invokeCount (catchAtBoundary (rawExecute env m ctx)).1 = 1 := by
  unfold catchAtBoundary rawExecute
  cases macroFailure env m.uuid <;> simp [invokeCount]

/-- A handler invokes exactly when its dedup check admits. -/
lemma invokeCount_checkAndRun (env : Env) (now : Nat) (d : DedupState)
    (nm uu : String) (m : MacroDoc) (ctx : Context) :
    invokeCount (checkAndRun env now d nm uu m ctx).2.1 =
      (if (shouldExecuteMacro d now nm uu).1 then 1 else 0) := by
  by_cases h : (shouldExecuteMacro d now nm uu).1
  · simp only [checkAndRun, h, if_true]
    exact invokeCount_catch env m ctx
  · simp only [checkAndRun, h]
    simp [invokeCount]

lemma checkAndRun_dedup (env : Env) (now : Nat) (d : DedupState)
    (nm uu : String) (m : MacroDoc) (ctx : Context) :
    (checkAndRun env now d nm uu m ctx).1 = (shouldExecuteMacro d now nm uu).2 := by
  by_cases h : (shouldExecuteMacro d now nm uu).1 <;> simp [checkAndRun, h]

/-- One handler run agrees with folding its recorded checks: same final
dedup state, and as many invocations as admitted checks. -/
lemma handler_fold (env : Env) (now : Nat) (st : SysState) (n : Notif) :
    (runHandler env now st n).dedup = (foldChecks st.dedup (runHandler env now st n).checks).1 ∧
    invokeCount (runHandler env now st n).effects =
      (foldChecks st.dedup (runHandler env now st n).checks).2 := by
  rcases hg : gateOf env st.pending n with ⟨p, w⟩ | ⟨p, nm, uu, m, ctx⟩ <;>
    simp only [runHandler, hg]
  · simp [foldChecks, invokeCount_warnEffects]
  · constructor
    · show (checkAndRun env now st.dedup nm uu m ctx).1 = _
      rw [checkAndRun_dedup]
      simp [foldChecks]
    · show invokeCount (checkAndRun env now st.dedup nm uu m ctx).2.1 = _
      rw [invokeCount_checkAndRun]
      simp [foldChecks]

lemma foldChecks_append (l₁ l₂ : List (Nat × String × String)) (d : DedupState) :
    foldChecks d (l₁ ++ l₂) =
      ((foldChecks (foldChecks d l₁).1 l₂).1,
       (foldChecks d l₁).2 + (foldChecks (foldChecks d l₁).1 l₂).2) := by
  induction l₁ generalizing d with
  | nil => simp [foldChecks]
  | cons c rest ih =>
    obtain ⟨t, nm, uu⟩ := c
    simp [foldChecks, ih, Nat.add_assoc]

/-- Total invocations of an event sequence equal the admitted checks of its
check trace, and the final dedup state is the fold of that trace. -/
lemma runEvents_fold (env : Env) (evs : List (Nat × Notif)) (st : SysState) :
    invokeCount (runEvents env st evs).2 = (foldChecks st.dedup (checksOf env st evs)).2 ∧
    (runEvents env st evs).1.dedup = (foldChecks st.dedup (checksOf env st evs)).1 := by
  induction evs generalizing st with
  | nil => simp [runEvents, checksOf, foldChecks, invokeCount]
  | cons e rest ih =>
    obtain ⟨t, n⟩ := e
    have hh := handler_fold env t st n
    simp only [runEvents, checksOf, invokeCount_append, foldChecks_append]
    constructor
    · rw [(ih ⟨(runHandler env t st n).dedup, (runHandler env t st n).pending⟩).1]
      rw [hh.1, hh.2]
    · rw [(ih ⟨(runHandler env t st n).dedup, (runHandler env t st n).pending⟩).2]
      rw [hh.1]

lemma hasLiveEntry_single_self (nm uu : String) (t e : Nat) (h : t < e) :
    hasLiveEntry ⟨[(keyFor nm uu, e)]⟩ t (keyFor nm uu) = true := by
  simp [hasLiveEntry, h]

/-- After one admitted check for a key, every further check for the same key
before the entry's expiry is suppressed and leaves the state unchanged. -/
lemma foldChecks_suppressed (nm uu : String) (e : Nat) :
    ∀ rest : List (Nat × String × String),
      (∀ c ∈ rest, c.2.1 = nm ∧ c.2.2 = uu ∧ c.1 < e) →
      foldChecks ⟨[(keyFor nm uu, e)]⟩ rest = (⟨[(keyFor nm uu, e)]⟩, 0)
  | [], _ => by simp [foldChecks]
  | (t, nm', uu') :: tail, hall => by
    have hmem := hall (t, nm', uu') (List.mem_cons_self _ _)
    simp only at hmem
    obtain ⟨h1, h2, h3⟩ := hmem
    subst h1; subst h2
    have hs : shouldExecuteMacro ⟨[(keyFor nm' uu', e)]⟩ t nm' uu' =
        (false, ⟨[(keyFor nm' uu', e)]⟩) := by
      simp [shouldExecuteMacro, hasLiveEntry_single_self nm' uu' t e h3]
    simp only [foldChecks, hs]
    rw [foldChecks_suppressed nm' uu' e tail (fun c hc => hall c (List.mem_cons_of_mem _ hc))]
    simp

/-- From an empty dedup state, a burst of same-key checks inside one 500 ms
window admits exactly the first one. -/
lemma foldChecks_single_admit (nm uu : String) (t₀ : Nat)
    (rest : List (Nat × String × String))
    (hall : ∀ c ∈ rest, c.2.1 = nm ∧ c.2.2 = uu ∧ c.1 < t₀ + 500) :
    (foldChecks ⟨[]⟩ ((t₀, nm, uu) :: rest)).2 = 1 := by
  have h0 : shouldExecuteMacro ⟨[]⟩ t₀ nm uu = (true, ⟨[(keyFor nm uu, t₀ + 500)]⟩) := by
    simp [shouldExecuteMacro, hasLiveEntry]
  simp only [foldChecks, h0]
  rw [foldChecks_suppressed nm uu (t₀ + 500) rest hall]
  simp

/-- C1.  For every sequence of host notifications that all describe one
physical consumption of a consumable item with an attached, resolvable
macro — i.e. every dedup check the run performs carries that item's name and
that macro's locator, at least one handler reaches its check, and all checks
fall within 500 ms of the first — exactly one invocation of the macro
occurs, whichever of the paths fire and in whatever order. -/
theorem claim1_exactly_one_invocation (env : Env) (p₀ : Pending)
    (evs : List (Nat × Notif)) (t₀ : Nat) (nm uu : String)
    (rest : List (Nat × String × String))
    (hchecks : checksOf env ⟨⟨[]⟩, p₀⟩ evs = (t₀, nm, uu) :: rest)
    (hwindow : ∀ c ∈ rest, c.2.1 = nm ∧ c.2.2 = uu ∧ c.1 < t₀ + 500) :
    invokeCount (runEvents env ⟨⟨[]⟩, p₀⟩ evs).2 = 1 := by
  rw [(runEvents_fold env evs ⟨⟨[]⟩, p₀⟩).1, hchecks]
  exact foldChecks_single_admit nm uu t₀ rest hwindow

/-! ### Witness scenario: one user, one macro, one consumable -/

/-- Environment for concrete witnesses: session user `u1`, one resolvable
macro `m1` whose execution succeeds, speaker actor `a1`. -/
def envW : Env := ⟨"u1", [("m1", ⟨"m1", "Heal"⟩)], [], [], [], [], some "a1"⟩

/-- A consumable with two charges and the macro `m1` attached. -/
def itemW : Item := ⟨"i1", "Potion", "consumable", 2, some "m1", some "a1"⟩

/-- A burst of three notification paths for one consumption, all of whose
dedup checks run within 500 ms. -/
def evsW : List (Nat × Notif) :=
  [(0, .preUpdate itemW ⟨some 1⟩ "u1"), (10, .pf2eUse itemW), (20, .pf2eConsume itemW "a1")]

/-- Witness for C1: the three-path burst of `evsW` runs the macro once. -/
theorem claim1_witness : invokeCount (runEvents envW ⟨⟨[]⟩, []⟩ evsW).2 = 1 :=
  claim1_exactly_one_invocation envW [] evsW 0 "Potion" "m1"
    [(10, "Potion", "m1"), (20, "Potion", "m1")] (by decide) (by decide)

/-- C2 (counterexample).  The claim states that every handler evaluates
duplicate suppression before any asynchronous resolution work.  In the
`preUpdateItem` handler the awaited macro resolution
(`await fromUuid(macroUuid)`, line 213) is step 1 of the skeleton while the
`shouldExecuteMacro` call (line 220) is step 2, so the suppression check runs
after asynchronous resolution work, refuting the claim. -/
theorem claim2_counterexample :
    preUpdateSkeleton.findIdx? (fun s => s == HandlerStep.awaitResolve) = some 1 ∧
    preUpdateSkeleton.findIdx? (fun s => s == HandlerStep.dedupCheck) = some 2 := by
  decide

/-- C2 (amended).  In every dedup-checking handler the awaited macro
resolution precedes the dedup check; nevertheless no two notifications for
the same `(itemName, macroUuid)` key within one 500 ms window can both pass
the check, because `shouldExecuteMacro` tests and registers the key in one
synchronous step: whichever check runs first registers the key, and the
other then finds it live. -/
theorem claim2_amended :
    (∀ pr ∈ handlerSkeletons,
      pr.2.findIdx? (fun s => s == HandlerStep.awaitResolve) = some 1 ∧
      pr.2.findIdx? (fun s => s == HandlerStep.dedupCheck) = some 2) ∧
    (∀ (d : DedupState) (t₁ t₂ : Nat) (nm uu : String), t₂ < t₁ + 500 →
      ¬((shouldExecuteMacro d t₁ nm uu).1 = true ∧
        (shouldExecuteMacro (shouldExecuteMacro d t₁ nm uu).2 t₂ nm uu).1 = true)) := by
  constructor
  · decide
  · intro d t₁ t₂ nm uu hw h
    obtain ⟨h1, h2⟩ := h
    by_cases hl : hasLiveEntry d t₁ (keyFor nm uu)
    · simp [shouldExecuteMacro, hl] at h1
    · have h0 : shouldExecuteMacro d t₁ nm uu =
          (true, ⟨(keyFor nm uu, t₁ + 500) :: d.entries⟩) := by
        simp [shouldExecuteMacro, hl]
      rw [h0] at h2
      simp [shouldExecuteMacro, hasLiveEntry, hw] at h2

/-- Witness for the amended C2 at a concrete input: two checks for the same
key 100 ms apart cannot both pass. -/
theorem claim2_amended_witness :
    ¬((shouldExecuteMacro ⟨[]⟩ 0 "Potion" "m1").1 = true ∧
      (shouldExecuteMacro (shouldExecuteMacro ⟨[]⟩ 0 "Potion" "m1").2 100 "Potion" "m1").1 = true) :=
  claim2_amended.2 ⟨[]⟩ 0 100 "Potion" "m1" (by decide)

/-- C3.  `admit` contract of the Duplicate Suppressor: `shouldExecuteMacro`
returns `true` — and registers the key with a 500 ms expiry, with no
caller-side cleanup — exactly when no unexpired entry exists for the key,
returns `false` otherwise leaving the state unchanged; and two notifications
for the same key separated by more than the 500 ms window are both
admitted. -/
theorem claim3_admit_contract :
    (∀ (d : DedupState) (t : Nat) (nm uu : String),
      ((shouldExecuteMacro d t nm uu).1 = true ↔ hasLiveEntry d t (keyFor nm uu) = false) ∧
      ((shouldExecuteMacro d t nm uu).1 = true →
        (shouldExecuteMacro d t nm uu).2.entries = (keyFor nm uu, t + 500) :: d.entries) ∧
      ((shouldExecuteMacro d t nm uu).1 = false → (shouldExecuteMacro d t nm uu).2 = d)) ∧
    (∀ (nm uu : String) (t₀ t₁ : Nat), t₀ + 500 < t₁ →
      (shouldExecuteMacro ⟨[]⟩ t₀ nm uu).1 = true ∧
      (shouldExecuteMacro (shouldExecuteMacro ⟨[]⟩ t₀ nm uu).2 t₁ nm uu).1 = true) := by
  constructor
  · intro d t nm uu
    by_cases hl : hasLiveEntry d t (keyFor nm uu) <;> simp [shouldExecuteMacro, hl]
  · intro nm uu t₀ t₁ hgt
    have hnl : ¬(t₁ < t₀ + 500) := by omega
    constructor
    · simp [shouldExecuteMacro, hasLiveEntry]
    · simp [shouldExecuteMacro, hasLiveEntry, hnl]

/-- Witness for C3 at a concrete input: the same key admitted at 0 ms is
admitted again at 501 ms. -/
theorem claim3_witness :
    (shouldExecuteMacro ⟨[]⟩ 0 "Potion" "m1").1 = true ∧
    (shouldExecuteMacro (shouldExecuteMacro ⟨[]⟩ 0 "Potion" "m1").2 501 "Potion" "m1").1 = true :=
  claim3_admit_contract.2 "Potion" "m1" 0 501 (by decide)

/-- The macro invocation is always among the guarded-execution effects. -/
lemma invoke_mem_catch (env : Env) (m : MacroDoc) (ctx : Context) :
    Effect.invoke m.uuid ctx ∈ (catchAtBoundary (rawExecute env m ctx)).1 := by
  unfold catchAtBoundary rawExecute
  cases macroFailure env m.uuid <;> simp

/-- The catch boundary never rethrows. -/
lemma catch_no_rethrow (r : List Effect × Option String) : (catchAtBoundary r).2 = none := by
  obtain ⟨effs, th⟩ := r
  cases th <;> simp [catchAtBoundary]

/-- Item for the C4 failing input: one charge left, the macro `m1`
attached. -/
def itemQ0 : Item := ⟨"i1", "Potion", "consumable", 1, some "m1", some "a1"⟩

/-- C4 (code bug).  The claim says an update whose new quantity is `0`
includes a quantity field and triggers an invocation.  On the failing input
— a consumable with quantity 1, an attached resolvable macro, a matching
user, and the change `{system: {quantity: 0}}` — the handler produces no
effects and performs no dedup check, because `!change.system?.quantity`
(line 191) treats the JS-falsy value `0` as an absent quantity field, even
though the field is present and `0` is strictly less than the current
quantity. -/
theorem claim4_quantity_zero_no_invocation :
    runHandler envW 0 ⟨⟨[]⟩, []⟩ (.preUpdate itemQ0 ⟨some 0⟩ "u1") =
      ⟨⟨[]⟩, [], [], none, []⟩ ∧
    (Change.mk (some 0)).quantity ≠ none ∧ (0 : Int) < itemQ0.quantity := by
  refine ⟨by decide, by decide, by decide⟩

/-- C5.  For a consumable item with an attached resolvable macro, a
pre-delete followed by its matching post-delete (and even a duplicate
post-delete) yields exactly one invocation, built from the pre-delete
snapshot: the snapshot's macro locator and the snapshot's owning actor
(with the speaker as fallback).  The pending entry is written once at
pre-delete and removed at the first post-delete, so the duplicate
post-delete contributes nothing and the pending table ends empty. -/
theorem claim5_delete_path (env : Env) (item : Item) (uuid : String) (m : MacroDoc)
    (t₁ t₂ t₃ : Nat)
    (htype : item.itemType = "consumable")
    (hflag : optStrTruthy item.macroFlag = some uuid)
    (hmac : lookupMacroDoc env uuid = some m) :
    (runHandler env t₁ ⟨⟨[]⟩, []⟩ (.preDelete item env.sessionUserId)).pending =
      [(item.id, ⟨item.name, uuid, item.parentActorId⟩)] ∧
    invokeCount (runEvents env ⟨⟨[]⟩, []⟩
      [(t₁, .preDelete item env.sessionUserId),
       (t₂, .postDelete item env.sessionUserId),
       (t₃, .postDelete item env.sessionUserId)]).2 = 1 ∧
    (runEvents env ⟨⟨[]⟩, []⟩
      [(t₁, .preDelete item env.sessionUserId),
       (t₂, .postDelete item env.sessionUserId),
       (t₃, .postDelete item env.sessionUserId)]).1.pending = [] ∧
    Effect.invoke m.uuid ⟨item.parentActorId <|> env.speakerActorId, item.id, item.name⟩ ∈
      (runEvents env ⟨⟨[]⟩, []⟩
        [(t₁, .preDelete item env.sessionUserId),
         (t₂, .postDelete item env.sessionUserId),
         (t₃, .postDelete item env.sessionUserId)]).2 := by
  have h1 : runHandler env t₁ ⟨⟨[]⟩, []⟩ (.preDelete item env.sessionUserId) =
      ⟨⟨[]⟩, [(item.id, ⟨item.name, uuid, item.parentActorId⟩)], [], none, []⟩ := by
    simp [runHandler, gateOf, gatePreDelete, htype, hflag, pendingSet, warnEffects]
  have h2 : runHandler env t₂
      ⟨⟨[]⟩, [(item.id, ⟨item.name, uuid, item.parentActorId⟩)]⟩
      (.postDelete item env.sessionUserId) =
      ⟨⟨[(keyFor item.name uuid, t₂ + 500)]⟩, [],
       (catchAtBoundary (rawExecute env m
         ⟨item.parentActorId <|> env.speakerActorId, item.id, item.name⟩)).1, none,
       [(t₂, item.name, uuid)]⟩ := by
    simp [runHandler, gateOf, gatePostDelete, pendingDelete, hmac, List.lookup,
      checkAndRun, shouldExecuteMacro, hasLiveEntry, catch_no_rethrow]
  have h3 : runHandler env t₃ ⟨⟨[(keyFor item.name uuid, t₂ + 500)]⟩, []⟩
      (.postDelete item env.sessionUserId) =
      ⟨⟨[(keyFor item.name uuid, t₂ + 500)]⟩, [], [], none, []⟩ := by
    simp [runHandler, gateOf, gatePostDelete, List.lookup, warnEffects]
  simp only [runEvents, h1, h2, h3]
  refine ⟨trivial, ?_, by simp, ?_⟩
  · simp only [List.nil_append, List.append_nil]
    exact invokeCount_catch env m _
  · simp [invoke_mem_catch]

/-- Witness for C5 at a concrete input: deleting the one-charge `itemQ0`
runs its macro once from the snapshot. -/
theorem claim5_witness :
    (runHandler envW 3 ⟨⟨[]⟩, []⟩ (.preDelete itemQ0 envW.sessionUserId)).pending =
      [(itemQ0.id, ⟨itemQ0.name, "m1", itemQ0.parentActorId⟩)] ∧
    invokeCount (runEvents envW ⟨⟨[]⟩, []⟩
      [(3, .preDelete itemQ0 envW.sessionUserId),
       (4, .postDelete itemQ0 envW.sessionUserId),
       (5, .postDelete itemQ0 envW.sessionUserId)]).2 = 1 ∧
    (runEvents envW ⟨⟨[]⟩, []⟩
      [(3, .preDelete itemQ0 envW.sessionUserId),
       (4, .postDelete itemQ0 envW.sessionUserId),
       (5, .postDelete itemQ0 envW.sessionUserId)]).1.pending = [] ∧
    Effect.invoke "m1" ⟨itemQ0.parentActorId <|> envW.speakerActorId, itemQ0.id, itemQ0.name⟩ ∈
      (runEvents envW ⟨⟨[]⟩, []⟩
        [(3, .preDelete itemQ0 envW.sessionUserId),
         (4, .postDelete itemQ0 envW.sessionUserId),
         (5, .postDelete itemQ0 envW.sessionUserId)]).2 :=
  claim5_delete_path envW itemQ0 "m1" ⟨"m1", "Heal"⟩ 3 4 5 rfl rfl rfl

/-- Environment for the C6 counterexample: the current session user is
`gm`, and the macro `m1` resolves. -/
def envC6 : Env := ⟨"gm", [("m1", ⟨"m1", "Heal"⟩)], [], [], [], [], some "a1"⟩

/-- A `pf2e.useItem` host event originating from another connected user. -/
def foreignUseEvent : HostEvent := ⟨"player2", 0, .pf2eUse itemW⟩

/-- An empty chat message (no item data at all). -/
def msgEmpty : ChatMsg := ⟨none, none, none, none, none, none, none, none⟩

/-- C6 (counterexample).  The claim says that on every notification path a
notification whose originating user differs from the session user is
ignored.  The `pf2e.useItem` hook payload carries no user identifier and
its handler applies no user filter: a well-formed use event originating
from `player2`, handled by the client whose session user is `gm`, resolves
the attached macro and invokes it. -/
theorem claim6_counterexample :
    WellFormedEvent foreignUseEvent ∧
    foreignUseEvent.originUserId ≠ envC6.sessionUserId ∧
    invokeCount (handleEvent envC6 ⟨⟨[]⟩, []⟩ foreignUseEvent).effects = 1 := by
  refine ⟨?_, by decide, by decide⟩
  intro u h
  simp [foreignUseEvent, notifUserId] at h

/-- C6 (amended).  On the paths whose hook payload carries the originating
user's id — pre-update, pre-delete and chat-message — a non-matching user
makes the handler return before any resolution work, with no effects and no
state change.  The post-delete path has no user filter of its own but acts
only on entries written by a matching pre-delete, so with no pending entry
for the item it does nothing.  The pf2e use/consume hook payloads carry no
user identifier, and those handlers apply no user filter. -/
theorem claim6_amended (env : Env) (now : Nat) (st : SysState) (item : Item)
    (change : Change) (msg : ChatMsg) (u : String) (hu : u ≠ env.sessionUserId) :
    runHandler env now st (.preUpdate item change u) = ⟨st.dedup, st.pending, [], none, []⟩ ∧
    runHandler env now st (.preDelete item u) = ⟨st.dedup, st.pending, [], none, []⟩ ∧
    runHandler env now st (.chatCreate msg u) = ⟨st.dedup, st.pending, [], none, []⟩ ∧
    (st.pending.lookup item.id = none →
      runHandler env now st (.postDelete item u) = ⟨st.dedup, st.pending, [], none, []⟩) ∧
    notifUserId (.pf2eUse item) = none ∧ notifUserId (.pf2eConsume item u) = none := by
  have hb : (u != env.sessionUserId) = true := by simpa [bne_iff_ne] using hu
  refine ⟨?_, ?_, ?_, ?_, rfl, rfl⟩
  · simp [runHandler, gateOf, gatePreUpdate, hb, warnEffects]
  · simp [runHandler, gateOf, gatePreDelete, hb, warnEffects]
  · simp [runHandler, gateOf, gateChatCreate, hb, warnEffects]
  · intro hp
    simp [runHandler, gateOf, gatePostDelete, hp, warnEffects]

/-- Witness for the amended C6: a pre-update from `player2` on the `gm`
client does nothing. -/
theorem claim6_amended_witness :
    runHandler envC6 0 ⟨⟨[]⟩, []⟩ (.preUpdate itemW ⟨some 1⟩ "player2") =
      ⟨⟨[]⟩, [], [], none, []⟩ :=
  (claim6_amended envC6 0 ⟨⟨[]⟩, []⟩ itemW ⟨some 1⟩ msgEmpty "player2" (by decide)).1

/-- The C7 item: the speaker actor's only consumable named
`Healing Potion`, with the macro `m1` attached. -/
def potionC7 : Item := ⟨"i9", "Healing Potion", "consumable", 1, some "m1", some "a1"⟩

/-- The C7 actor, owning exactly one consumable of that name. -/
def actorC7 : Actor := ⟨"a1", [potionC7]⟩

/-- The C7 environment: actor `a1` registered, macro `m1` resolvable, no
item locator resolvable. -/
def envC7 : Env := ⟨"u1", [("m1", ⟨"m1", "Heal"⟩)], [], [], [("a1", actorC7)], [], some "a1"⟩

/-- The C7 chat message: no direct item, no context locator, an origin
locator that does not resolve (the consumed copy is gone), the body
`Uses Healing Potion`, the speaker actor `a1`. -/
def msgC7 : ChatMsg :=
  ⟨none, none, some "Actor.a1.Item.i1", none, none, none, some "Uses Healing Potion", some "a1"⟩

/-- C7.  A chat message with no direct or resolvable item reference whose
body reads `Uses Healing Potion`, from an actor owning exactly one
consumable of that name: the resolver locates that item (actor inventory
searched first), and — whenever no dedup entry is live for its key — the
attached macro is invoked with that item in the context. -/
theorem claim7_chat_name_resolution (t : Nat) (d : DedupState)
    (hlive : hasLiveEntry d t (keyFor "Healing Potion" "m1") = false) :
    resolveChatItem envC7 msgC7 = some potionC7 ∧
    (actorC7.items.filter
      (fun i => i.name == "Healing Potion" && i.itemType == "consumable")).length = 1 ∧
    (runHandler envC7 t ⟨d, []⟩ (.chatCreate msgC7 "u1")).effects =
      [Effect.invoke "m1" ⟨some "a1", "i9", "Healing Potion"⟩] := by
  have hg : gateOf envC7 [] (.chatCreate msgC7 "u1") =
      .go [] "Healing Potion" "m1" ⟨"m1", "Heal"⟩ ⟨some "a1", "i9", "Healing Potion"⟩ := by
    decide
  have hmf : macroFailure envC7 "m1" = none := rfl
  refine ⟨by decide, by decide, ?_⟩
  simp only [runHandler, hg]
  simp [checkAndRun, shouldExecuteMacro, hlive, catchAtBoundary, rawExecute, hmf]

/-- Witness for C7 at a concrete input: from an empty dedup state at time 0
the chat message produces the invocation. -/
theorem claim7_witness :
    resolveChatItem envC7 msgC7 = some potionC7 ∧
    (actorC7.items.filter
      (fun i => i.name == "Healing Potion" && i.itemType == "consumable")).length = 1 ∧
    (runHandler envC7 0 ⟨⟨[]⟩, []⟩ (.chatCreate msgC7 "u1")).effects =
      [Effect.invoke "m1" ⟨some "a1", "i9", "Healing Potion"⟩] :=
  claim7_chat_name_resolution 0 ⟨[]⟩ (by decide)

/-! ### Gate characterizations: a handler invokes only after a successful
macro resolution -/

lemma gatePreUpdate_go (env : Env) (p : Pending) (item : Item) (change : Change)
    (u : String) (pend : Pending) (nm uu : String) (m : MacroDoc) (ctx : Context)
    (h : gatePreUpdate env p item change u = .go pend nm uu m ctx) :
    optStrTruthy item.macroFlag = some uu ∧ lookupMacroDoc env uu = some m := by
  unfold gatePreUpdate at h
  repeat' split at h
  all_goals simp_all

lemma gatePf2eUse_go (env : Env) (p : Pending) (item : Item)
    (pend : Pending) (nm uu : String) (m : MacroDoc) (ctx : Context)
    (h : gatePf2eUse env p item = .go pend nm uu m ctx) :
    optStrTruthy item.macroFlag = some uu ∧ lookupMacroDoc env uu = some m := by
  unfold gatePf2eUse at h
  repeat' split at h
  all_goals simp_all

lemma gatePf2eConsume_go (env : Env) (p : Pending) (item : Item) (aid : String)
    (pend : Pending) (nm uu : String) (m : MacroDoc) (ctx : Context)
    (h : gatePf2eConsume env p item aid = .go pend nm uu m ctx) :
    optStrTruthy item.macroFlag = some uu ∧ lookupMacroDoc env uu = some m := by
  unfold gatePf2eConsume at h
  repeat' split at h
  all_goals simp_all

lemma gatePostDelete_go (env : Env) (p : Pending) (item : Item)
    (pend : Pending) (nm uu : String) (m : MacroDoc) (ctx : Context)
    (h : gatePostDelete env p item = .go pend nm uu m ctx) :
    ∃ snap : PendingEntry, p.lookup item.id = some snap ∧ snap.macroUuid = uu ∧
      lookupMacroDoc env uu = some m := by
  unfold gatePostDelete at h
  split at h
  · simp at h
  · rename_i snap hsnap
    split at h
    · simp at h
    · rename_i m0 hm0
      rw [GateResult.go.injEq] at h
      obtain ⟨-, -, h3, h4, -⟩ := h
      exact ⟨snap, hsnap, h3, by rw [← h3, hm0, h4]⟩

lemma gateChatCreate_go (env : Env) (p : Pending) (msg : ChatMsg) (u : String)
    (pend : Pending) (nm uu : String) (m : MacroDoc) (ctx : Context)
    (h : gateChatCreate env p msg u = .go pend nm uu m ctx) :
    ∃ it : Item, resolveChatItem env msg = some it ∧
      optStrTruthy it.macroFlag = some uu ∧ lookupMacroDoc env uu = some m := by
  unfold gateChatCreate at h
  split at h
  · simp at h
  · split at h
    · simp at h
    · rename_i it hit
      split at h
      · simp at h
      · split at h
        · simp at h
        · rename_i uuid0 huuid
          split at h
          · simp at h
          · rename_i m0 hm0
            rw [GateResult.go.injEq] at h
            obtain ⟨-, -, h3, h4, -⟩ := h
            exact ⟨it, hit, by rw [← h3]; exact huuid, by rw [← h3, hm0, h4]⟩

lemma bail_counts (env : Env) (now : Nat) (st : SysState) (n : Notif)
    (p : Pending) (w : Option String)
    (hg : gateOf env st.pending n = .bail p w) :
    invokeCount (runHandler env now st n).effects = 0 ∧
    uiErrorCount (runHandler env now st n).effects = 0 := by
  simp only [runHandler, hg]
  cases w <;> simp [warnEffects, invokeCount, uiErrorCount]

/-- C8.  On every notification path, when the item's attached macro locator
resolves to no macro document, the consumption produces no macro invocation
and no user-visible error notification: the handlers bail out (at most with
a console warning), on the pre-update, pf2e-use, pf2e-consume paths for the
item's own flag, on the post-delete path for the snapshot's locator, and on
the chat path for the resolved item's flag. -/
theorem claim8_missing_macro_silent (env : Env) (now : Nat) (st : SysState)
    (item : Item) (change : Change) (u aid : String) (msg : ChatMsg) (uuid : String)
    (hflag : optStrTruthy item.macroFlag = some uuid)
    (hmac : lookupMacroDoc env uuid = none) :
    (invokeCount (runHandler env now st (.preUpdate item change u)).effects = 0 ∧
     uiErrorCount (runHandler env now st (.preUpdate item change u)).effects = 0) ∧
    (invokeCount (runHandler env now st (.pf2eUse item)).effects = 0 ∧
     uiErrorCount (runHandler env now st (.pf2eUse item)).effects = 0) ∧
    (invokeCount (runHandler env now st (.pf2eConsume item aid)).effects = 0 ∧
     uiErrorCount (runHandler env now st (.pf2eConsume item aid)).effects = 0) ∧
    (∀ snap : PendingEntry, st.pending.lookup item.id = some snap →
      lookupMacroDoc env snap.macroUuid = none →
      invokeCount (runHandler env now st (.postDelete item u)).effects = 0 ∧
      uiErrorCount (runHandler env now st (.postDelete item u)).effects = 0) ∧
    (resolveChatItem env msg = some item →
      invokeCount (runHandler env now st (.chatCreate msg u)).effects = 0 ∧
      uiErrorCount (runHandler env now st (.chatCreate msg u)).effects = 0) := by
  refine ⟨?_, ?_, ?_, ?_, ?_⟩
  · rcases hg : gateOf env st.pending (.preUpdate item change u) with ⟨p, w⟩ | ⟨p, nm, uu, m, ctx⟩
    · exact bail_counts env now st _ p w hg
    · obtain ⟨h1, h2⟩ := gatePreUpdate_go env st.pending item change u p nm uu m ctx hg
      simp_all
  · rcases hg : gateOf env st.pending (.pf2eUse item) with ⟨p, w⟩ | ⟨p, nm, uu, m, ctx⟩
    · exact bail_counts env now st _ p w hg
    · obtain ⟨h1, h2⟩ := gatePf2eUse_go env st.pending item p nm uu m ctx hg
      simp_all
  · rcases hg : gateOf env st.pending (.pf2eConsume item aid) with ⟨p, w⟩ | ⟨p, nm, uu, m, ctx⟩
    · exact bail_counts env now st _ p w hg
    · obtain ⟨h1, h2⟩ := gatePf2eConsume_go env st.pending item aid p nm uu m ctx hg
      simp_all
  · intro snap hsnap hmac2
    rcases hg : gateOf env st.pending (.postDelete item u) with ⟨p, w⟩ | ⟨p, nm, uu, m, ctx⟩
    · exact bail_counts env now st _ p w hg
    · obtain ⟨snap', hsnap', h3, h4⟩ := gatePostDelete_go env st.pending item p nm uu m ctx hg
      rw [hsnap] at hsnap'
      injection hsnap' with he
      subst he
      rw [h3] at hmac2
      rw [hmac2] at h4
      cases h4
  · intro hres
    rcases hg : gateOf env st.pending (.chatCreate msg u) with ⟨p, w⟩ | ⟨p, nm, uu, m, ctx⟩
    · exact bail_counts env now st _ p w hg
    · obtain ⟨it, hres', hflag', hmac'⟩ := gateChatCreate_go env st.pending msg u p nm uu m ctx hg
      rw [hres] at hres'
      injection hres' with he
      subst he
      rw [hflag] at hflag'
      injection hflag' with he2
      subst he2
      rw [hmac] at hmac'
      cases hmac'

/-- Environment with no macro documents at all: every locator is dangling. -/
def envMissing : Env := ⟨"u1", [], [], [], [], [], some "a1"⟩

/-- Witness for C8 at a concrete input: consuming `itemW` (whose flag `m1`
does not resolve in `envMissing`) on the pre-update path yields no
invocation and no user-visible error. -/
theorem claim8_witness :
    invokeCount (runHandler envMissing 0 ⟨⟨[]⟩, []⟩
      (.preUpdate itemW ⟨some 1⟩ "u1")).effects = 0 ∧
    uiErrorCount (runHandler envMissing 0 ⟨⟨[]⟩, []⟩
      (.preUpdate itemW ⟨some 1⟩ "u1")).effects = 0 :=
  (claim8_missing_macro_silent envMissing 0 ⟨⟨[]⟩, []⟩ itemW ⟨some 1⟩ "u1" "a1"
    msgEmpty "m1" rfl rfl).1

lemma checkAndRun_thrown (env : Env) (now : Nat) (d : DedupState)
    (nm uu : String) (m : MacroDoc) (ctx : Context) :
    (checkAndRun env now d nm uu m ctx).2.2 = none := by
  by_cases h : (shouldExecuteMacro d now nm uu).1
  · simp [checkAndRun, h, catch_no_rethrow]
  · simp [checkAndRun, h]

/-- C9.  On every notification path, a failure raised by the invoked
macro's own execution is contained: the handler rethrows nothing to the
host dispatcher, produces exactly one user-visible failure notification per
failing invocation (and none otherwise), and every such notification
carries the failure's message prefixed `Failed to execute macro: `. -/
theorem claim9_failure_contained (env : Env) (now : Nat) (st : SysState) (n : Notif) :
    (runHandler env now st n).thrown = none ∧
    uiErrorCount (runHandler env now st n).effects =
      failingInvokeCount env (runHandler env now st n).effects ∧
    (∀ msg, Effect.uiError msg ∈ (runHandler env now st n).effects →
      ∃ uuid ctx fmsg, Effect.invoke uuid ctx ∈ (runHandler env now st n).effects ∧
        macroFailure env uuid = some fmsg ∧ msg = "Failed to execute macro: " ++ fmsg) := by
  rcases hg : gateOf env st.pending n with ⟨p, w⟩ | ⟨p, nm, uu, m, ctx⟩ <;>
    simp only [runHandler, hg]
  · refine ⟨by trivial, ?_, ?_⟩
    · cases w <;> simp [warnEffects, uiErrorCount, failingInvokeCount]
    · intro msg hmem
      cases w <;> simp [warnEffects] at hmem
  · refine ⟨checkAndRun_thrown env now st.dedup nm uu m ctx, ?_, ?_⟩
    · by_cases ha : (shouldExecuteMacro st.dedup now nm uu).1
      · rcases hf : macroFailure env m.uuid with _ | fmsg <;>
          simp [checkAndRun, ha, catchAtBoundary, rawExecute, hf, uiErrorCount,
            failingInvokeCount]
      · simp [checkAndRun, ha, uiErrorCount, failingInvokeCount]
    · intro msg hmem
      by_cases ha : (shouldExecuteMacro st.dedup now nm uu).1
      · rcases hf : macroFailure env m.uuid with _ | fmsg
        · simp [checkAndRun, ha, catchAtBoundary, rawExecute, hf] at hmem
        · simp only [checkAndRun, ha, if_true, catchAtBoundary, rawExecute, hf] at hmem
          simp at hmem
          exact ⟨m.uuid, ctx, fmsg,
            by simp [checkAndRun, ha, catchAtBoundary, rawExecute, hf], hf, hmem⟩
      · simp [checkAndRun, ha] at hmem

/-- Environment in which the macro `m1` resolves but its execution raises
`boom`. -/
def envFail : Env := ⟨"u1", [("m1", ⟨"m1", "Heal"⟩)], [("m1", "boom")], [], [], [], some "a1"⟩

/-- Witness for C9 at a concrete input: using `itemW` with the failing macro
rethrows nothing and produces matching error-notification counts. -/
theorem claim9_witness :
    (runHandler envFail 0 ⟨⟨[]⟩, []⟩ (.pf2eUse itemW)).thrown = none ∧
    uiErrorCount (runHandler envFail 0 ⟨⟨[]⟩, []⟩ (.pf2eUse itemW)).effects =
      failingInvokeCount envFail (runHandler envFail 0 ⟨⟨[]⟩, []⟩ (.pf2eUse itemW)).effects ∧
    (∀ msg, Effect.uiError msg ∈ (runHandler envFail 0 ⟨⟨[]⟩, []⟩ (.pf2eUse itemW)).effects →
      ∃ uuid ctx fmsg,
        Effect.invoke uuid ctx ∈ (runHandler envFail 0 ⟨⟨[]⟩, []⟩ (.pf2eUse itemW)).effects ∧
        macroFailure envFail uuid = some fmsg ∧ msg = "Failed to execute macro: " ++ fmsg) :=
  claim9_failure_contained envFail 0 ⟨⟨[]⟩, []⟩ (.pf2eUse itemW)

/-- Splitting at a separator character absent from both prefixes is
unambiguous. -/
lemma append_sep_inj (c : Char) :
    ∀ l₁ l₂ r₁ r₂ : List Char, c ∉ l₁ → c ∉ l₂ →
      l₁ ++ c :: r₁ = l₂ ++ c :: r₂ → l₁ = l₂ ∧ r₁ = r₂
  | [], [], r₁, r₂, _, _, h => by
      simp only [List.nil_append, List.cons.injEq] at h
      exact ⟨rfl, h.2⟩
  | [], b :: l₂, r₁, r₂, h₁, h₂, h => by
      simp only [List.nil_append, List.cons_append, List.cons.injEq] at h
      obtain ⟨rfl, -⟩ := h
      exact absurd (List.mem_cons_self c l₂) h₂
  | a :: l₁, [], r₁, r₂, h₁, h₂, h => by
      simp only [List.cons_append, List.nil_append, List.cons.injEq] at h
      obtain ⟨heq, -⟩ := h
      exact absurd (heq ▸ List.mem_cons_self a l₁) h₁
  | a :: l₁, b :: l₂, r₁, r₂, h₁, h₂, h => by
      simp only [List.cons_append, List.cons.injEq] at h
      obtain ⟨rfl, htail⟩ := h
      have hrec := append_sep_inj c l₁ l₂ r₁ r₂
        (fun hm => h₁ (List.mem_cons_of_mem _ hm))
        (fun hm => h₂ (List.mem_cons_of_mem _ hm)) htail
      exact ⟨by rw [hrec.1], hrec.2⟩

/-- The dedup key is injective on pairs whose item name avoids `:`. -/
lemma keyFor_inj (n₁ u₁ n₂ u₂ : String)
    (hc₁ : ':' ∉ n₁.data) (hc₂ : ':' ∉ n₂.data)
    (h : keyFor n₁ u₁ = keyFor n₂ u₂) : n₁ = n₂ ∧ u₁ = u₂ := by
  have hd : n₁.data ++ ':' :: u₁.data = n₂.data ++ ':' :: u₂.data := by
    have h' := congrArg String.data h
    simpa [keyFor, String.data_append] using h'
  obtain ⟨h1, h2⟩ := append_sep_inj ':' n₁.data n₂.data u₁.data u₂.data hc₁ hc₂ hd
  exact ⟨String.ext h1, String.ext h2⟩

/-- C10 (counterexample).  The claim states that the key encoding is
injective on `(itemName, macroReference)` pairs, admitting one pair never
suppressing another.  The pairs `("A:B", "C")` and `("A", "B:C")` are
distinct yet share the key `A:B:C`, and admitting the first suppresses the
second inside the window. -/
theorem claim10_counterexample :
    keyFor "A:B" "C" = keyFor "A" "B:C" ∧
    (("A:B", "C") : String × String) ≠ ("A", "B:C") ∧
    (shouldExecuteMacro ⟨[]⟩ 0 "A:B" "C").1 = true ∧
    (shouldExecuteMacro (shouldExecuteMacro ⟨[]⟩ 0 "A:B" "C").2 100 "A" "B:C").1 = false := by
  refine ⟨by decide, by decide, by decide, by decide⟩

/-- C10 (amended).  On pairs whose item names contain no `:` the key
encoding is injective, and admitting one pair does not suppress a different
pair within the window: the second check still passes. -/
theorem claim10_amended (n₁ u₁ n₂ u₂ : String) (t₁ t₂ : Nat)
    (hc₁ : ':' ∉ n₁.data) (hc₂ : ':' ∉ n₂.data)
    (hne : (n₁, u₁) ≠ (n₂, u₂)) :
    keyFor n₁ u₁ ≠ keyFor n₂ u₂ ∧
    (shouldExecuteMacro ⟨[]⟩ t₁ n₁ u₁).1 = true ∧
    (shouldExecuteMacro (shouldExecuteMacro ⟨[]⟩ t₁ n₁ u₁).2 t₂ n₂ u₂).1 = true := by
  have hkey : keyFor n₁ u₁ ≠ keyFor n₂ u₂ := by
    intro h
    obtain ⟨e1, e2⟩ := keyFor_inj n₁ u₁ n₂ u₂ hc₁ hc₂ h
    exact hne (by rw [e1, e2])
  have h0 : (shouldExecuteMacro ⟨[]⟩ t₁ n₁ u₁).2 = ⟨[(keyFor n₁ u₁, t₁ + 500)]⟩ := by
    simp [shouldExecuteMacro, hasLiveEntry]
  have hbe : (keyFor n₁ u₁ == keyFor n₂ u₂) = false := by
    simp [hkey]
  refine ⟨hkey, by simp [shouldExecuteMacro, hasLiveEntry], ?_⟩
  rw [h0]
  simp [shouldExecuteMacro, hasLiveEntry, hbe]

/-- Witness for the amended C10: two colon-free pairs do not interfere. -/
theorem claim10_witness :
    keyFor "Ale" "m1" ≠ keyFor "Bread" "m2" ∧
    (shouldExecuteMacro ⟨[]⟩ 0 "Ale" "m1").1 = true ∧
    (shouldExecuteMacro (shouldExecuteMacro ⟨[]⟩ 0 "Ale" "m1").2 100 "Bread" "m2").1 = true :=
  claim10_amended "Ale" "m1" "Bread" "m2" 0 100 (by decide) (by decide) (by decide)

end ConsumableMacros
